import Mathlib

/-!
Shallow embedding of the Azure Event Hub log-forwarder sources, for checking
the natural-language specification against the code.

Conventions used throughout:
* Python `str` values that are manipulated character-wise are embedded as
  `List Char` (Python strings are sequences of characters; `len` = `List.length`,
  slicing = `take`/`drop`, `+` = `++`).  Fixed dictionary keys are plain `String`s.
* Python `dict` values are embedded as insertion-ordered association lists
  (`List (String × β)`); assignment updates the first matching key in place or
  appends a fresh key at the end, exactly like a CPython dict.
* Fallible code is embedded with `Option`/`Except`; a Python function that
  catches every exception internally is embedded as a total function.
* External collaborators (the JSON serializer, the jmespath evaluator, the HTTP
  transport) enter as explicit function parameters or outcome oracles.
-/

/-- CPython dict assignment `d[k] = v`: overwrite the first binding of `k`
keeping its position, or append a new binding at the end. -/
def pyDictSet {β : Type} : List (String × β) → String → β → List (String × β)
  | [], k, v => [(k, v)]
  | (k', v') :: rest, k, v =>
    if k' = k then (k, v) :: rest else (k', v') :: pyDictSet rest k v

/-- CPython dict lookup `d.get(k)`: value of the first binding of `k`, if any. -/
def pyDictGet? {β : Type} (d : List (String × β)) (k : String) : Option β :=
  (d.find? (fun kv => kv.1 == k)).map (·.2)

/-- CPython dict lookup with default, `d.get(k, dflt)`. -/
def pyDictGetD {β : Type} (d : List (String × β)) (k : String) (dflt : β) : β :=
  (pyDictGet? d k).getD dflt

/-- Python `in` on strings: `needle in hay` (contiguous substring test). -/
def pySubstr (needle : List Char) : List Char → Bool
  | [] => needle.isEmpty
  | c :: rest => needle.isPrefixOf (c :: rest) || pySubstr needle rest

/-- Python `str.casefold` restricted to the ASCII range (all comparisons in the
source compare against ASCII literals, where casefold and lower agree). -/
def casefold (s : List Char) : List Char :=
  s.map Char.toLower

/-! ## services/logs_sender.py — LogSender -/

/-- Loop body of `LogSender._prepare_batches`.  The entry type is abstract;
`entry_size` stands for `len(json.dumps(log).encode("utf-8"))`, the per-entry
serialized size (the JSON serializer is an external collaborator).  Arguments
`current`/`current_size` are the running batch and its summed entry size.
Mirrors the source: an entry larger than `max_size` is skipped with a warning;
the running batch is emitted first when it already holds `max_events` entries
or when adding the entry would push the byte total past `max_size`; a final
non-empty batch is emitted after the input is exhausted. -/
def prepare_batches_go (max_size max_events : Nat) (entry_size : α → Nat) :
    List α → List α → Nat → List (List α)
  | [], current, _ => if current.isEmpty then [] else [current]
  | log :: logs, current, current_size =>
    if max_size < entry_size log then
      prepare_batches_go max_size max_events entry_size logs current current_size
    else if max_events ≤ current.length ∨ max_size < current_size + entry_size log then
      current :: prepare_batches_go max_size max_events entry_size logs [log] (entry_size log)
    else
      prepare_batches_go max_size max_events entry_size logs
        (current ++ [log]) (current_size + entry_size log)

/-- `LogSender._prepare_batches(logs)`: batches are represented by their entry
lists (the source pairs each with its serialization and count on yield). -/
def prepare_batches (max_size max_events : Nat) (entry_size : α → Nat)
    (logs : List α) : List (List α) :=
  prepare_batches_go max_size max_events entry_size logs [] 0

/-- Result of `LogSender.send`: the returned boolean together with the number
of batches dispatched to the HTTP transport (0 means no request was issued). -/
structure SendResult where
  success : Bool
  batches_dispatched : Nat
deriving DecidableEq, Repr

/-- `LogSender.send(logs)`: build the batches; if there are none, warn and
return True before any HTTP session is opened; otherwise dispatch every batch
(`deliver` abstracts `_process_batch`, one boolean per batch) and return the
conjunction of the per-batch results. -/
def LogSender.send (deliver : List α → Bool) (max_size max_events : Nat)
    (entry_size : α → Nat) (logs : List α) : SendResult :=
  let batches := prepare_batches max_size max_events entry_size logs
  if batches.isEmpty then ⟨true, 0⟩
  else ⟨batches.all deliver, batches.length⟩

/-- Outcome of one `_send_batch` call, as decided by the HTTP transport:
a completed HTTP round trip with some status code, a network-level error
(`aiohttp.ClientError`, caught inside `_send_batch`), or any other exception
escaping `_send_batch`. -/
inductive SendOutcome where
  | response (status : Nat)
  | netError
  | exn
deriving DecidableEq, Repr

/-- `LogSender._send_batch` → `_handle_response`: a completed response returns
`status < 300`; a caught network error logs and returns False; any other
exception propagates to the caller. -/
def send_batch_result : SendOutcome → Except Unit Bool
  | .response status => .ok (decide (status < 300))
  | .netError => .ok false
  | .exn => .error ()

/-- Observable trace of one `_process_batch` call: the returned boolean, the
number of `_send_batch` attempts actually made, and the successive sleep
multipliers (the source sleeps `attempt * 1.5` seconds before a retry). -/
structure BatchAttemptTrace where
  result : Bool
  attempts_used : Nat
  sleep_multipliers : List Nat
deriving DecidableEq, Repr

/-- Retry loop of `LogSender._process_batch`, attempt counter running from
`attempt` while `fuel` iterations of `range(1, max_retries + 1)` remain.
A `_send_batch` call that returns a boolean is returned immediately; an
exception either fails the batch (last attempt) or sleeps and retries. -/
def process_batch_go (outcome : Nat → SendOutcome) (max_retries : Nat) :
    Nat → Nat → List Nat → BatchAttemptTrace
  | attempt, 0, sleeps => ⟨false, attempt - 1, sleeps⟩
  | attempt, fuel + 1, sleeps =>
    match send_batch_result (outcome attempt) with
    | .ok b => ⟨b, attempt, sleeps⟩
    | .error _ =>
      if attempt = max_retries then ⟨false, attempt, sleeps⟩
      else process_batch_go outcome max_retries (attempt + 1) fuel (sleeps ++ [attempt])

/-- `LogSender._process_batch`: up to `max_retries` attempts, 1-indexed;
`outcome n` is what the transport does on the n-th attempt. -/
def process_batch (outcome : Nat → SendOutcome) (max_retries : Nat) : BatchAttemptTrace :=
  process_batch_go outcome max_retries 1 max_retries []

/-! ## processors/custom_processor.py — timestamp normalization -/

/-- One element of a compiled time regex: a digit class `\d` or a literal. -/
inductive TimeTok where
  | digit
  | lit (c : Char)
deriving DecidableEq, Repr

/-- Anchored match of a digit/literal pattern against the start of a string,
as `re.Pattern.match` does (a match may leave trailing input). -/
def match_toks : List TimeTok → List Char → Bool
  | [], _ => true
  | _ :: _, [] => false
  | .digit :: ts, c :: cs => c.isDigit && match_toks ts cs
  | .lit l :: ts, c :: cs => (c = l) && match_toks ts cs

/-- A compiled pattern as the source holds it: the regex source text
(`pattern.pattern`) together with its matcher. -/
structure CompiledPattern where
  source : String
  toks : List TimeTok

/-- Shorthand for `\d{n}` within a compiled time pattern. -/
def digits (n : Nat) : List TimeTok :=
  List.replicate n .digit

/-- First entry of `CustomProcessor.time_patterns`:
`re.compile(r"\d{4}-\d{2}-\d{2} \d{2}:\d{2}:\d{2}")` (dashed date-time). -/
def dash_pattern : CompiledPattern :=
  { source := "\\d\x7b4\x7d-\\d\x7b2\x7d-\\d\x7b2\x7d \\d\x7b2\x7d:\\d\x7b2\x7d:\\d\x7b2\x7d"
    toks := digits 4 ++ [.lit '-'] ++ digits 2 ++ [.lit '-'] ++ digits 2 ++ [.lit ' ']
      ++ digits 2 ++ [.lit ':'] ++ digits 2 ++ [.lit ':'] ++ digits 2 }

/-- Second entry of `CustomProcessor.time_patterns`:
`re.compile(r"\d{2}/\d{2}/\d{4} \d{2}:\d{2}:\d{2}")` (slashed date-time). -/
def slash_pattern : CompiledPattern :=
  { source := "\\d\x7b2\x7d/\\d\x7b2\x7d/\\d\x7b4\x7d \\d\x7b2\x7d:\\d\x7b2\x7d:\\d\x7b2\x7d"
    toks := digits 2 ++ [.lit '/'] ++ digits 2 ++ [.lit '/'] ++ digits 4 ++ [.lit ' ']
      ++ digits 2 ++ [.lit ':'] ++ digits 2 ++ [.lit ':'] ++ digits 2 }

/-- `CustomProcessor.time_patterns`, in source order. -/
def time_patterns : List CompiledPattern :=
  [dash_pattern, slash_pattern]

/-- `CustomProcessor._get_format(pattern)`: the source returns the dashed
format exactly when the text `"202"` occurs in the regex source string. -/
def get_format (pattern : CompiledPattern) : String :=
  if pySubstr "202".data pattern.source.data then "%Y-%m-%d %H:%M:%S"
  else "%m/%d/%Y %H:%M:%S"

/-- One directive of a `strptime` format string. -/
inductive FmtDirective where
  | dirY
  | dirm
  | dird
  | dirH
  | dirM
  | dirS
  | ws
  | lit (c : Char)
deriving DecidableEq, Repr

/-- Translation of a format string into directives: `%Y %m %d %H %M %S` as in
CPython `_strptime`; whitespace in the format matches a run of whitespace;
any other character is a literal. -/
def parse_format : List Char → List FmtDirective
  | [] => []
  | '%' :: 'Y' :: rest => .dirY :: parse_format rest
  | '%' :: 'm' :: rest => .dirm :: parse_format rest
  | '%' :: 'd' :: rest => .dird :: parse_format rest
  | '%' :: 'H' :: rest => .dirH :: parse_format rest
  | '%' :: 'M' :: rest => .dirM :: parse_format rest
  | '%' :: 'S' :: rest => .dirS :: parse_format rest
  | c :: rest => if c.isWhitespace then .ws :: parse_format rest else .lit c :: parse_format rest

/-- Numeric value of an ASCII digit character. -/
def digit_val (c : Char) : Nat :=
  c.toNat - 48

/-- Read exactly `n` digits, returning their value and the remaining input. -/
def read_exact_digits : Nat → Nat → List Char → Option (Nat × List Char)
  | 0, acc, cs => some (acc, cs)
  | _ + 1, _, [] => none
  | n + 1, acc, c :: cs =>
    if c.isDigit then read_exact_digits n (10 * acc + digit_val c) cs else none

/-- Try fixed-width numeric alternatives in order (CPython `_strptime` compiles
each directive to an alternation of digit patterns, widest first); each
alternative is a digit count plus a bound on the admissible values. -/
def parse_alt (cs : List Char) : List (Nat × (Nat → Bool)) → Option (Nat × List Char)
  | [] => none
  | (width, admissible) :: rest =>
    match read_exact_digits width 0 cs with
    | some (v, remaining) => if admissible v then some (v, remaining) else parse_alt cs rest
    | none => parse_alt cs rest

/-- Broken-down time as produced by `datetime.strptime` (fields not set by a
directive keep CPython defaults; no sub-second directive occurs here). -/
structure TmParts where
  year : Nat := 1900
  month : Nat := 1
  day : Nat := 1
  hour : Nat := 0
  minute : Nat := 0
  second : Nat := 0
deriving DecidableEq, Repr

/-- Directive-by-directive run of `strptime`: `%Y` is exactly four digits;
`%m` is `1[0-2]|0[1-9]|[1-9]`; `%d` is `3[01]|[12]\d|0[1-9]|[1-9]`; `%H` is
`2[0-3]|[0-1]\d|\d`; `%M` is `[0-5]\d|\d`; `%S` is `6[0-1]|[0-5]\d|\d`;
a literal must match exactly; whitespace matches a non-empty whitespace run. -/
def strptime_run : List FmtDirective → List Char → TmParts → Option (TmParts × List Char)
  | [], cs, tm => some (tm, cs)
  | .dirY :: fmt, cs, tm =>
    match parse_alt cs [(4, fun _ => true)] with
    | some (v, rest) => strptime_run fmt rest { tm with year := v }
    | none => none
  | .dirm :: fmt, cs, tm =>
    match parse_alt cs [(2, fun v => (10 ≤ v && v ≤ 12) || (1 ≤ v && v ≤ 9)),
        (1, fun v => 1 ≤ v && v ≤ 9)] with
    | some (v, rest) => strptime_run fmt rest { tm with month := v }
    | none => none
  | .dird :: fmt, cs, tm =>
    match parse_alt cs [(2, fun v => 1 ≤ v && v ≤ 31), (1, fun v => 1 ≤ v && v ≤ 9)] with
    | some (v, rest) => strptime_run fmt rest { tm with day := v }
    | none => none
  | .dirH :: fmt, cs, tm =>
    match parse_alt cs [(2, fun v => v ≤ 23), (1, fun v => v ≤ 9)] with
    | some (v, rest) => strptime_run fmt rest { tm with hour := v }
    | none => none
  | .dirM :: fmt, cs, tm =>
    match parse_alt cs [(2, fun v => v ≤ 59), (1, fun v => v ≤ 9)] with
    | some (v, rest) => strptime_run fmt rest { tm with minute := v }
    | none => none
  | .dirS :: fmt, cs, tm =>
    match parse_alt cs [(2, fun v => v ≤ 61), (1, fun v => v ≤ 9)] with
    | some (v, rest) => strptime_run fmt rest { tm with second := v }
    | none => none
  | .ws :: fmt, cs, tm =>
    match cs with
    | c :: rest =>
      if c.isWhitespace then strptime_run fmt (rest.dropWhile Char.isWhitespace) tm else none
    | [] => none
  | .lit l :: fmt, cs, tm =>
    match cs with
    | c :: rest => if c = l then strptime_run fmt rest tm else none
    | [] => none

/-- `datetime.strptime(s, fmt)`: parse the whole input against the format;
unconverted trailing data raises `ValueError`, embedded as `none`.  Calendar
validation beyond the per-field digit ranges is not reached by the inputs in
this development and is not modelled. -/
def strptime (s : List Char) (fmt : String) : Option TmParts :=
  match strptime_run (parse_format fmt.data) s {} with
  | some (tm, []) => some tm
  | _ => none

/-- Decimal digit character for a value below 10. -/
def digit_char (n : Nat) : Char :=
  Char.ofNat (48 + n)

/-- Decimal rendering of a natural number (fuelled; 8 digits suffice here). -/
def nat_to_chars_go : Nat → Nat → List Char → List Char
  | 0, _, acc => acc
  | fuel + 1, n, acc =>
    if n < 10 then digit_char n :: acc
    else nat_to_chars_go fuel (n / 10) (digit_char (n % 10) :: acc)

/-- Zero-padded decimal rendering, as `datetime.isoformat` prints fields. -/
def pad_num (width n : Nat) : List Char :=
  let ds := nat_to_chars_go 8 n []
  List.replicate (width - ds.length) '0' ++ ds

/-- `datetime.isoformat(timespec="milliseconds")` for a `strptime` result
(microseconds are 0, so the millisecond field prints as `000`). -/
def isoformat_milliseconds (tm : TmParts) : List Char :=
  pad_num 4 tm.year ++ ['-'] ++ pad_num 2 tm.month ++ ['-'] ++ pad_num 2 tm.day
    ++ ['T'] ++ pad_num 2 tm.hour ++ [':'] ++ pad_num 2 tm.minute ++ [':']
    ++ pad_num 2 tm.second ++ ['.'] ++ pad_num 3 0

/-- Pattern loop of `CustomProcessor._parse_datetime`: on a pattern match,
parse with the format chosen by `_get_format`; a `ValueError` moves on to the
next pattern; falling through returns the current UTC time
(`datetime.now(timezone.utc).isoformat()`), passed in as `now_utc_iso`. -/
def parse_datetime_go (now_utc_iso : List Char) (timestamp : List Char) :
    List CompiledPattern → List Char
  | [] => now_utc_iso
  | p :: rest =>
    if match_toks p.toks timestamp then
      match strptime timestamp (get_format p) with
      | some tm => isoformat_milliseconds tm
      | none => parse_datetime_go now_utc_iso timestamp rest
    else parse_datetime_go now_utc_iso timestamp rest

/-- `CustomProcessor._parse_datetime(timestamp)`. -/
def parse_datetime (now_utc_iso : List Char) (timestamp : List Char) : List Char :=
  parse_datetime_go now_utc_iso timestamp time_patterns

/-! ## processors/custom_processor.py — field-length policy -/

/-- A Python value sitting in a parsed record before the length policy runs:
either a `str`, or a non-string carrying its `str(value)` rendering and its
`json.dumps(value)` rendering (both renderings are produced by external
library calls, so they are data here). -/
inductive PyVal where
  | str (s : List Char)
  | other (str_repr json_repr : List Char)
deriving DecidableEq, Repr

/-- Python `str(value)` (identity on strings). -/
def py_str : PyVal → List Char
  | .str s => s
  | .other r _ => r

/-- Serialization used by `_truncate_content`:
`json.dumps(content) if not isinstance(content, str) else content`. -/
def content_serialized : PyVal → List Char
  | .str s => s
  | .other _ j => j

/-- Configuration slice used by `CustomProcessor._apply_field_limits`. -/
structure LimitsConfig where
  attribute_limit : Nat
  content_limit : Nat
  truncated_mark : List Char
deriving DecidableEq, Repr

/-- `CustomProcessor._truncate_content`: cut to
`content_limit - len(truncated_mark)` characters plus the mark when the
serialized content is longer than the limit, otherwise keep it.  (The source
slices with a nonnegative bound because the configured limit is at least the
mark length; the theorems assume exactly that.) -/
def truncate_content (cfg : LimitsConfig) (v : PyVal) : List Char :=
  let content_str := content_serialized v
  if cfg.content_limit < content_str.length then
    content_str.take (cfg.content_limit - cfg.truncated_mark.length) ++ cfg.truncated_mark
  else content_str

/-- `CustomProcessor._truncate_generic_field`: same policy on `str(value)`
with the attribute limit. -/
def truncate_generic_field (cfg : LimitsConfig) (v : PyVal) : List Char :=
  let str_value := py_str v
  if cfg.attribute_limit < str_value.length then
    str_value.take (cfg.attribute_limit - cfg.truncated_mark.length) ++ cfg.truncated_mark
  else str_value

/-- `CustomProcessor._truncate_value`: dispatch on the key. -/
def truncate_value (cfg : LimitsConfig) (key : String) (v : PyVal) : List Char :=
  if key = "content" then truncate_content cfg v
  else if key = "severity" || key = "timestamp" then py_str v
  else truncate_generic_field cfg v

/-- `CustomProcessor._apply_field_limits`: rebuild the record with every value
passed through `_truncate_value` (Python dict comprehension keeps key order). -/
def apply_field_limits (cfg : LimitsConfig) (record : List (String × PyVal)) :
    List (String × List Char) :=
  record.map (fun kv => (kv.1, truncate_value cfg kv.1 kv.2))

/-! ## processors/sub/mapping.py — severity extraction -/

/-- A value a level field can carry: a JSON integer or a string (the record
fields relevant to severity extraction). -/
inductive LevelVal where
  | int (n : Int)
  | str (s : String)
deriving DecidableEq, Repr

/-- `DEFAULT_SEVERITY_INFO`. -/
def DEFAULT_SEVERITY_INFO : String := "Informational"

/-- `log_level_to_severity_dict`. -/
def log_level_to_severity_dict : List (Int × String) :=
  [(1, "Critical"), (2, "Error"), (3, "Warning"), (4, "Informational")]

/-- `azure_level_properties`. -/
def azure_level_properties : List String :=
  ["Level", "level"]

/-- Python `dict.get(k, default)` on the severity table. -/
def level_dict_get (k : Int) (dflt : String) : String :=
  ((log_level_to_severity_dict.find? (fun kv => kv.1 == k)).map (·.2)).getD dflt

/-- `map_to_severity(record, parsed_record, level_property)` reduced to the
value it stores under `"severity"`: an `int` level goes through the table with
default `Informational`; any other value is stored verbatim (a non-canonical
result only triggers a warning). -/
def map_to_severity (raw_value : LevelVal) : LevelVal :=
  match raw_value with
  | .int n => .str (level_dict_get n DEFAULT_SEVERITY_INFO)
  | v => v

/-- `extract_severity(record, parsed_record)` reduced to the severity value it
stores: the first alias of `azure_level_properties` present in the record is
mapped through `map_to_severity`; with no alias present the default is stored.
(The dead `KeyError` arm of the source also stores the default.) -/
def extract_severity (record : List (String × LevelVal)) : LevelVal :=
  match azure_level_properties.find? (fun k => (pyDictGet? record k).isSome) with
  | some key =>
    match pyDictGet? record key with
    | some v => map_to_severity v
    | none => .str DEFAULT_SEVERITY_INFO
  | none => .str DEFAULT_SEVERITY_INFO

/-! ## processors/sub/mapping.py — resource-id attribute extraction -/

/-- `RESOURCE_ID_ATTRIBUTE`. -/
def RESOURCE_ID_ATTRIBUTE : String := "azure.resource.id"

/-- `SUBSCRIPTION_ATTRIBUTE`. -/
def SUBSCRIPTION_ATTRIBUTE : String := "azure.subscription"

/-- `RESOURCE_GROUP_ATTRIBUTE`. -/
def RESOURCE_GROUP_ATTRIBUTE : String := "azure.resource.group"

/-- `RESOURCE_TYPE_ATTRIBUTE`. -/
def RESOURCE_TYPE_ATTRIBUTE : String := "azure.resource.type"

/-- `RESOURCE_NAME_ATTRIBUTE`. -/
def RESOURCE_NAME_ATTRIBUTE : String := "azure.resource.name"

/-- An entry under construction: keys to character-list values. -/
abbrev Entry := List (String × List Char)

/-- `extract_resource_id_attributes(parsed_record, resource_id)`: always store
the raw id, then split `resource_id.lstrip("/")` on `/`; bail out (keeping only
the raw id) when fewer than 7 segments remain or segments 0/2/4 do not
case-insensitively equal `subscriptions`/`resourcegroups`/`providers`;
otherwise store subscription, resource group, resource name (last segment) and
the resource type built from segment 5 plus the odd-indexed later segments of
`parts[5:-1]`, joined with `/`. -/
def extract_resource_id_attributes (parsed_record : Entry) (resource_id : List Char) :
    Entry :=
  let parsed_record := pyDictSet parsed_record RESOURCE_ID_ATTRIBUTE resource_id
  let parts := List.splitOn '/' (resource_id.dropWhile (· = '/'))
  if parts.length < 7 then parsed_record
  else if casefold (parts.getD 0 []) ≠ "subscriptions".data then parsed_record
  else if casefold (parts.getD 2 []) ≠ "resourcegroups".data then parsed_record
  else if casefold (parts.getD 4 []) ≠ "providers".data then parsed_record
  else
    let parsed_record := pyDictSet parsed_record SUBSCRIPTION_ATTRIBUTE (parts.getD 1 [])
    let parsed_record := pyDictSet parsed_record RESOURCE_GROUP_ATTRIBUTE (parts.getD 3 [])
    let parsed_record := pyDictSet parsed_record RESOURCE_NAME_ATTRIBUTE (parts.getLastD [])
    let resource_type_parts_with_parent := (parts.drop 5).dropLast
    let resource_type_parts :=
      (resource_type_parts_with_parent.enum.filter
        (fun p => p.1 == 0 || !(p.1 % 2 == 0))).map (·.2)
    pyDictSet parsed_record RESOURCE_TYPE_ATTRIBUTE
      (List.intercalate ['/'] resource_type_parts)

/-! ## processors/sub/metadata_engine.py — MetadataEngine -/

/-- A raw record as the matchers see it: string-valued fields
(`record.get("category", "")` is the only field the extractors read). -/
abbrev RawRec := List (String × List Char)

/-- `_eq_comparator`: case-insensitive equality. -/
def eq_comparator (x y : List Char) : Bool :=
  casefold x == casefold y

/-- `_in_comparator`: case-insensitive membership in the comma-split operand. -/
def in_comparator (x y : List Char) : Bool :=
  (List.splitOn ',' (casefold y)).contains (casefold x)

/-- `_prefix_comparator`: case-insensitive prefix test. -/
def prefix_comparator (x y : List Char) : Bool :=
  (casefold y).isPrefixOf (casefold x)

/-- `_contains_comparator`: case-insensitive substring test. -/
def contains_comparator (x y : List Char) : Bool :=
  pySubstr (casefold y) (casefold x)

/-- The comparison operator of a source matcher (`_CONDITION_COMPARATOR_MAP`). -/
inductive CondOp where
  | opEq
  | opIn
  | opPrefix
  | opContains
deriving DecidableEq, Repr

/-- Comparator selected by the operator. -/
def cond_evaluator : CondOp → List Char → List Char → Bool
  | .opEq => eq_comparator
  | .opIn => in_comparator
  | .opPrefix => prefix_comparator
  | .opContains => contains_comparator

/-- The source kind of a matcher (`_SOURCE_VALUE_EXTRACTOR_MAP`). -/
inductive SourceKind where
  | resourceType
  | category
deriving DecidableEq, Repr

/-- Value extractor selected by the source kind: `resourceType` reads the
already-derived resource-type attribute of the partial entry, `category` reads
the raw record, each defaulting to the empty string. -/
def source_value (k : SourceKind) (record : RawRec) (parsed_record : Entry) : List Char :=
  match k with
  | .resourceType => pyDictGetD parsed_record RESOURCE_TYPE_ATTRIBUTE []
  | .category => pyDictGetD record "category" []

/-- A `SourceMatcher` after construction: the `valid` flag plus the parsed
operator, operand and source kind (construction-time parsing of the condition
text is outside the claims). -/
structure SourceMatcher where
  valid : Bool
  source : SourceKind
  op : CondOp
  operand : List Char
deriving DecidableEq, Repr

/-- `SourceMatcher.match`: an invalid matcher never matches; otherwise the
comparator is applied to the extracted value and the operand. -/
def SourceMatcher.matches (m : SourceMatcher) (record : RawRec) (parsed_record : Entry) :
    Bool :=
  if !m.valid then false
  else cond_evaluator m.op (source_value m.source record parsed_record) m.operand

/-- An `Attribute` of a config rule: output key and jmespath pattern text. -/
structure RuleAttribute where
  key : String
  pattern : String
deriving DecidableEq, Repr

/-- A `ConfigRule`: its source matchers and its attributes. -/
structure ConfigRule where
  entity_type_name : String
  source_matchers : List SourceMatcher
  attributes : List RuleAttribute
deriving DecidableEq, Repr

/-- `MetadataEngine._is_rule_applicable`: all matchers must match. -/
def is_rule_applicable (rule : ConfigRule) (record : RawRec) (parsed_record : Entry) :
    Bool :=
  rule.source_matchers.all (fun m => m.matches record parsed_record)

/-- `MetadataEngine._apply_rule`: evaluate each attribute pattern against the
raw record (`search` abstracts `jmespath.search`, with `none` covering both a
null result and a caught evaluation error) and assign non-null results. -/
def apply_rule (search : String → RawRec → Option (List Char)) (rule : ConfigRule)
    (parsed_record : Entry) (raw_record : RawRec) : Entry :=
  rule.attributes.foldl
    (fun parsed attr =>
      match search attr.pattern raw_record with
      | some value => pyDictSet parsed attr.key value
      | none => parsed)
    parsed_record

/-- Rule loop of `MetadataEngine.apply`: first applicable rule is applied and
the loop returns; with no applicable rule the default rule applies when
present, else the entry is left unchanged. -/
def metadata_apply_go (search : String → RawRec → Option (List Char))
    (default_rule : Option ConfigRule) (record : RawRec) (parsed_record : Entry) :
    List ConfigRule → Entry
  | [] =>
    match default_rule with
    | some d => apply_rule search d parsed_record record
    | none => parsed_record
  | rule :: rest =>
    if is_rule_applicable rule record parsed_record then
      apply_rule search rule parsed_record record
    else metadata_apply_go search default_rule record parsed_record rest

/-- `MetadataEngine.apply(record, parsed_record)` for an engine holding
`rules` (in load order) and `default_rule`. -/
def MetadataEngine.apply (search : String → RawRec → Option (List Char))
    (rules : List ConfigRule) (default_rule : Option ConfigRule)
    (record : RawRec) (parsed_record : Entry) : Entry :=
  metadata_apply_go search default_rule record parsed_record rules

/-! ## processors/custom_processor.py — extract_logs / _process_record -/

/-- A decoded element of the `records` list of an event body, as far as
`_process_record` distinguishes them: a JSON object (a Python dict record) or
a non-dict JSON value, carried here by an integer example. -/
inductive RawJson where
  | jint (n : Int)
  | jdict (fields : List (String × List Char))
deriving DecidableEq, Repr

/-- `CustomProcessor._process_record(record)`: the whole body is guarded by
`try/except` returning `None` on any exception.  For a non-dict record the
very first step, the membership test `k in record` inside
`_deserialize_properties`, raises `TypeError`, so the handler yields `none`.
For a dict record the remaining pipeline is abstracted by `build_record`
(its own internal failures are caught by the same handler and are not needed
for the claims). -/
def process_record (build_record : List (String × List Char) → Entry) :
    RawJson → Option Entry
  | .jint _ => none
  | .jdict fields => some (build_record fields)

/-- `CustomProcessor.extract_logs` after body decoding and JSON parsing:
`records` holds the parsed `records` list, where a Python `None` element is
`Option.none`.  The source comprehension
`[self._process_record(record) for record in ... if record is not None]`
filters the *input* records for `None` and keeps every `_process_record`
result — including the `None` results of failed records. -/
def extract_logs (proc : RawJson → Option Entry) (records : List (Option RawJson)) :
    List (Option Entry) :=
  (records.filterMap id).map proc

/-! ## services/eventhub_consumer.py — process_message and checkpointing -/

/-- Outcome of `_send_logs_safely`: a boolean `send` result is only logged
(an error log when it is False) and the method returns normally; an exception
out of `send` is logged and re-raised.  (`LogSender.send` itself wraps its
body in `try/except Exception: return False`, so in composition the argument
is always `.ok`.) -/
def send_logs_safely (send_result : Except Unit Bool) : Except Unit Unit :=
  match send_result with
  | .ok _ => .ok ()
  | .error e => .error e

/-- `CustomProcessor.process(partition_context, event)`: extract the logs and,
when at least one was produced, run `_send_logs_safely`; any escaping
exception is logged and re-raised. -/
def CustomProcessor.process (extracted : List (Option Entry))
    (send_result : Except Unit Bool) : Except Unit Unit :=
  if extracted.isEmpty then .ok () else send_logs_safely send_result

/-- Observable trace of one `EventHubConsumer.process_message` call. -/
structure ConsumerTrace where
  checkpoint_updated : Bool
  raised_processing_error : Bool
deriving DecidableEq, Repr

/-- `EventHubConsumer.process_message`: run `processor.process`; on normal
return call `partition_context.update_checkpoint(event)`; on an exception log
it, skip the checkpoint update and raise `ProcessingError` (which the
`error_handler` decorator re-raises unchanged). -/
def process_message (process_outcome : Except Unit Unit) : ConsumerTrace :=
  match process_outcome with
  | .ok _ => ⟨true, false⟩
  | .error _ => ⟨false, true⟩

/-! ## Helper lemmas -/

theorem pyDictGet?_set_self {β : Type} (d : List (String × β)) (k : String) (v : β) :
    pyDictGet? (pyDictSet d k v) k = some v := by
  induction d with
  | nil => simp [pyDictSet, pyDictGet?, List.find?]
  | cons kv rest ih =>
    by_cases h : kv.1 = k
    · simp [pyDictSet, pyDictGet?, List.find?, h]
    · have hb : (kv.1 == k) = false := beq_eq_false_iff_ne.mpr h
      simpa [pyDictSet, pyDictGet?, List.find?, h, hb] using ih

theorem pyDictGet?_set_other {β : Type} (d : List (String × β)) (k k' : String) (v : β)
    (h : k' ≠ k) :
    pyDictGet? (pyDictSet d k v) k' = pyDictGet? d k' := by
  have hb : (k == k') = false := beq_eq_false_iff_ne.mpr (Ne.symm h)
  induction d with
  | nil => simp [pyDictSet, pyDictGet?, List.find?, hb]
  | cons kv rest ih =>
    by_cases hk : kv.1 = k
    · subst hk
      simp [pyDictSet, pyDictGet?, List.find?, hb]
    · have hkb : (kv.1 == k) = false := beq_eq_false_iff_ne.mpr hk
      by_cases hk' : kv.1 = k'
      · simp [pyDictSet, pyDictGet?, List.find?, hk, hk', h]
      · have hk'b : (kv.1 == k') = false := beq_eq_false_iff_ne.mpr hk'
        simpa [pyDictSet, pyDictGet?, List.find?, hk, hk'b] using ih

theorem prepare_batches_go_flatten {α : Type} (max_size max_events : Nat)
    (entry_size : α → Nat) :
    ∀ (logs current : List α) (current_size : Nat),
      (prepare_batches_go max_size max_events entry_size logs current current_size).flatten
        = current ++ logs.filter (fun l => entry_size l ≤ max_size) := by
  intro logs
  induction logs with
  | nil => intro current current_size; cases current <;> simp [prepare_batches_go]
  | cons log logs ih =>
    intro current current_size
    by_cases hdrop : max_size < entry_size log
    · have hf : ¬ entry_size log ≤ max_size := Nat.not_le.mpr hdrop
      simp [prepare_batches_go, hdrop, hf, ih]
    · have hf : entry_size log ≤ max_size := Nat.not_lt.mp hdrop
      by_cases hclose : max_events ≤ current.length ∨ max_size < current_size + entry_size log
      · simp [prepare_batches_go, hdrop, hclose, hf, ih]
      · simp [prepare_batches_go, hdrop, hclose, hf, ih]

theorem prepare_batches_go_bounds {α : Type} (max_size max_events : Nat)
    (entry_size : α → Nat) (hE : 1 ≤ max_events) :
    ∀ (logs current : List α) (current_size : Nat),
      current_size = (current.map entry_size).sum →
      current_size ≤ max_size →
      current.length ≤ max_events →
      ∀ b ∈ prepare_batches_go max_size max_events entry_size logs current current_size,
        b ≠ [] ∧ b.length ≤ max_events ∧ (b.map entry_size).sum ≤ max_size := by
  intro logs
  induction logs with
  | nil =>
    intro current current_size hsum hsize hlen b hb
    by_cases hcur : current.isEmpty
    · simp [prepare_batches_go, hcur] at hb
    · rw [prepare_batches_go, if_neg hcur] at hb
      rw [List.mem_singleton] at hb
      subst hb
      exact ⟨fun hnil => hcur (by simp [hnil]), hlen, hsum ▸ hsize⟩
  | cons log logs ih =>
    intro current current_size hsum hsize hlen b hb
    rw [prepare_batches_go] at hb
    by_cases hdrop : max_size < entry_size log
    · rw [if_pos hdrop] at hb
      exact ih current current_size hsum hsize hlen b hb
    · rw [if_neg hdrop] at hb
      by_cases hclose : max_events ≤ current.length ∨ max_size < current_size + entry_size log
      · rw [if_pos hclose] at hb
        rcases List.mem_cons.mp hb with rfl | hb
        · have hne : b ≠ [] := by
            rintro rfl
            rcases hclose with h | h
            · simp at h
              omega
            · rw [hsum] at h
              simp at h
              omega
          exact ⟨hne, hlen, hsum ▸ hsize⟩
        · exact ih [log] (entry_size log) (by simp) (Nat.not_lt.mp hdrop)
            (by simpa using hE) b hb
      · rw [if_neg hclose] at hb
        push_neg at hclose
        obtain ⟨hlen', hsize'⟩ := hclose
        refine ih (current ++ [log]) (current_size + entry_size log) ?_ hsize' ?_ b hb
        · simp [hsum]
        · simp only [List.length_append, List.length_singleton]
          omega

/-- C5: `makeBatches` drops any entry whose individual serialized size exceeds
`maxBytes` (it appears in no batch); every other entry appears, in input
order, in exactly one emitted batch (the concatenation of the batches is the
filtered input); every emitted batch is non-empty with at most `maxCount`
entries and summed per-entry size at most `maxBytes`; and entries of size `s`
with `maxBytes = 2.5 s` and `maxCount = 100` pack two to a batch. -/
theorem prepare_batches_spec {α : Type} (max_size max_events : Nat)
    (entry_size : α → Nat) (logs : List α) (hE : 1 ≤ max_events) :
    ((prepare_batches max_size max_events entry_size logs).flatten
        = logs.filter (fun l => entry_size l ≤ max_size))
  ∧ (∀ l, max_size < entry_size l →
        l ∉ (prepare_batches max_size max_events entry_size logs).flatten)
  ∧ (∀ b ∈ prepare_batches max_size max_events entry_size logs,
        b ≠ [] ∧ b.length ≤ max_events ∧ (b.map entry_size).sum ≤ max_size)
  ∧ prepare_batches 5 100 (fun n : Nat => n) [2, 2, 2, 2, 2, 2]
      = [[2, 2], [2, 2], [2, 2]] := by
  have hflat := prepare_batches_go_flatten max_size max_events entry_size logs [] 0
  refine ⟨hflat, ?_, ?_, by decide⟩
  · intro l hl hmem
    rw [prepare_batches] at hmem
    rw [hflat] at hmem
    simp only [List.nil_append, List.mem_filter, decide_eq_true_eq] at hmem
    omega
  · exact prepare_batches_go_bounds max_size max_events entry_size hE logs [] 0
      (by simp) (by simp) (by simp)

/-- Witness for C5 at a concrete input. -/
theorem prepare_batches_spec_witness :
    (1 : Nat) ≤ 100
  ∧ (prepare_batches 5 100 (fun n : Nat => n) [2, 2, 2, 2, 2, 2]).flatten
      = [2, 2, 2, 2, 2, 2].filter (fun l => l ≤ 5) :=
  ⟨by decide, (prepare_batches_spec 5 100 (fun n : Nat => n) [2, 2, 2, 2, 2, 2]
    (by decide)).1⟩

theorem prepare_batches_go_all_oversized {α : Type} (max_size max_events : Nat)
    (entry_size : α → Nat) :
    ∀ logs : List α, (∀ l ∈ logs, max_size < entry_size l) →
      prepare_batches_go max_size max_events entry_size logs [] 0 = [] := by
  intro logs
  induction logs with
  | nil => intro _; simp [prepare_batches_go]
  | cons log logs ih =>
    intro h
    rw [prepare_batches_go, if_pos (h log (List.mem_cons_self log logs))]
    exact ih fun l hl => h l (List.mem_cons_of_mem log hl)

/-- C10: when every entry of the input is individually larger than the maximum
request size (in particular when the input is empty), no batch is produced and
`send` returns True without dispatching any request. -/
theorem send_no_batches_spec {α : Type} (deliver : List α → Bool)
    (max_size max_events : Nat) (entry_size : α → Nat) (logs : List α)
    (h : ∀ l ∈ logs, max_size < entry_size l) :
    prepare_batches max_size max_events entry_size logs = []
  ∧ LogSender.send deliver max_size max_events entry_size logs = ⟨true, 0⟩ := by
  have hempty : prepare_batches max_size max_events entry_size logs = [] :=
    prepare_batches_go_all_oversized max_size max_events entry_size logs h
  exact ⟨hempty, by simp [LogSender.send, hempty]⟩

/-- Witness for C10: one oversized entry, a delivery stub that always fails,
yet `send` returns True with no request dispatched. -/
theorem send_no_batches_spec_witness :
    (∀ l ∈ [7], 5 < (fun n : Nat => n) l)
  ∧ LogSender.send (fun _ => false) 5 10 (fun n : Nat => n) [7] = ⟨true, 0⟩ :=
  ⟨by decide, (send_no_batches_spec (fun _ => false) 5 10 (fun n : Nat => n) [7]
    (by decide)).2⟩

theorem process_batch_go_all_exn (outcome : Nat → SendOutcome)
    (hexn : ∀ i, outcome i = .exn) (max_retries : Nat) :
    ∀ (fuel attempt : Nat) (sleeps : List Nat),
      attempt + fuel = max_retries + 1 → 1 ≤ attempt →
      process_batch_go outcome max_retries attempt fuel sleeps
        = ⟨false, max_retries, sleeps ++ List.range' attempt (fuel - 1)⟩ := by
  intro fuel
  induction fuel with
  | zero =>
    intro attempt sleeps htotal _
    rw [process_batch_go]
    have : attempt = max_retries + 1 := by omega
    simp [this]
  | succ fuel ih =>
    intro attempt sleeps htotal hpos
    rw [process_batch_go, hexn attempt]
    show (if attempt = max_retries then _ else _) = _
    by_cases hlast : attempt = max_retries
    · have hfuel : fuel = 0 := by omega
      simp [hlast, hfuel]
    · rw [if_neg hlast]
      rw [ih (attempt + 1) (sleeps ++ [attempt]) (by omega) (by omega)]
      have hr : List.range' attempt fuel = attempt :: List.range' (attempt + 1) (fuel - 1) := by
        obtain ⟨f, rfl⟩ : ∃ f, fuel = f + 1 := ⟨fuel - 1, by omega⟩
        rw [List.range'_succ]
        simp
      simp [hr]

/-- C2 counterexample: with `maxRetries = 3` and the transport answering HTTP
500 on every attempt, `_process_batch` makes exactly one `_send_batch` attempt
and returns False — it does not exhaust the 3 attempts the claim requires. -/
theorem process_batch_http_error_counterexample :
    (process_batch (fun _ => .response 500) 3).attempts_used = 1
  ∧ ¬ (process_batch (fun _ => .response 500) 3).attempts_used = 3
  ∧ (process_batch (fun _ => .response 500) 3).result = false
  ∧ (process_batch (fun _ => .netError) 3).attempts_used = 1 := by decide

/-- C2 (amended): a completed HTTP response decides the batch on that very
attempt — below 300 succeeds, 300 or above fails with no retry — and a caught
network-level error likewise fails the batch on that attempt with no retry;
only an exception escaping a send attempt counts as a failed attempt subject
to retry, with linear backoff multipliers 1, 2, …; after `maxRetries` such
attempts the batch is marked failed; and `send` returns False as soon as one
batch failed, whatever the sibling batches did. -/
theorem process_batch_spec {α : Type} (outcome : Nat → SendOutcome)
    (max_retries : Nat) (hR : 1 ≤ max_retries) :
    (∀ s, outcome 1 = .response s →
        process_batch outcome max_retries = ⟨decide (s < 300), 1, []⟩)
  ∧ (outcome 1 = .netError → process_batch outcome max_retries = ⟨false, 1, []⟩)
  ∧ ((∀ i, outcome i = .exn) →
        process_batch outcome max_retries
          = ⟨false, max_retries, List.range' 1 (max_retries - 1)⟩)
  ∧ (∀ (deliver : List α → Bool) (max_size max_events : Nat) (entry_size : α → Nat)
        (logs : List α) (b : List α),
        b ∈ prepare_batches max_size max_events entry_size logs →
        deliver b = false →
        (LogSender.send deliver max_size max_events entry_size logs).success = false) := by
  refine ⟨?_, ?_, ?_, ?_⟩
  · intro s hs
    obtain ⟨fuel, rfl⟩ : ∃ fuel, max_retries = fuel + 1 := ⟨max_retries - 1, by omega⟩
    rw [process_batch, process_batch_go, hs]
    rfl
  · intro hs
    obtain ⟨fuel, rfl⟩ : ∃ fuel, max_retries = fuel + 1 := ⟨max_retries - 1, by omega⟩
    rw [process_batch, process_batch_go, hs]
    rfl
  · intro hexn
    rw [process_batch, process_batch_go_all_exn outcome hexn max_retries max_retries 1 []
      (by omega) (by omega)]
    simp
  · intro deliver max_size max_events entry_size logs b hb hfail
    rw [LogSender.send]
    have hne : ¬ (prepare_batches max_size max_events entry_size logs).isEmpty := by
      intro hemp
      rw [List.isEmpty_iff] at hemp
      rw [hemp] at hb
      exact List.not_mem_nil b hb
    simp only [hne, if_false, Bool.if_false_left]
    cases hall : (prepare_batches max_size max_events entry_size logs).all deliver with
    | false => rfl
    | true =>
      have := List.all_eq_true.mp hall b hb
      rw [hfail] at this
      exact absurd this (by decide)

/-- Witness for C2 (amended) at concrete inputs. -/
theorem process_batch_spec_witness :
    (1 : Nat) ≤ 3
  ∧ process_batch (fun _ => SendOutcome.exn) 3 = ⟨false, 3, List.range' 1 2⟩ :=
  ⟨by decide, (process_batch_spec (α := Nat) (fun _ => SendOutcome.exn) 3
    (by decide)).2.2.1 (fun _ => rfl)⟩

/-- C4 (code bug): `_get_format` keys on the text `"202"` occurring in the
regex source, which occurs in neither pattern (their sources contain no `0`),
so the dashed pattern is paired with the slashed format; a dashed timestamp
such as `2024-01-01 10:00:00` therefore matches the first pattern, fails to
parse, falls through the second pattern, and comes back as the current UTC
time instead of `2024-01-01T10:00:00.000`.  Slashed timestamps still parse. -/
theorem parse_datetime_dash_falls_back (now_utc_iso : List Char) :
    get_format dash_pattern = "%m/%d/%Y %H:%M:%S"
  ∧ match_toks dash_pattern.toks "2024-01-01 10:00:00".data = true
  ∧ strptime "2024-01-01 10:00:00".data (get_format dash_pattern) = none
  ∧ parse_datetime now_utc_iso "2024-01-01 10:00:00".data = now_utc_iso
  ∧ parse_datetime now_utc_iso "01/02/2024 10:00:00".data
      = "2024-01-02T10:00:00.000".data := by
  exact ⟨by decide, by decide, by decide, rfl, rfl⟩

/-- C1 (code bug): the comprehension in `extract_logs` filters `None` among
the parsed input records, not among the `_process_record` results, so a record
whose processing raises (here the non-dict record `42`, which makes
`_deserialize_properties` raise `TypeError`) contributes a `None` element to
the returned list instead of being dropped; the sibling record is still
processed, and no exception escapes. -/
theorem extract_logs_failed_record_yields_none :
    ∀ build_record : List (String × List Char) → Entry,
      extract_logs (process_record build_record)
          [some (.jint 42), some (.jdict [("a", "b".data)])]
        = [none, some (build_record [("a", "b".data)])]
      ∧ none ∈ extract_logs (process_record build_record)
          [some (.jint 42), some (.jdict [("a", "b".data)])]
      ∧ (extract_logs (process_record build_record)
          [some (.jint 42), some (.jdict [("a", "b".data)])]).length = 2 :=
  fun build_record => ⟨rfl, by simp [extract_logs, process_record], rfl⟩

/-- C3 counterexample: when the extracted logs are non-empty and `send`
reports failure (returns False), `process` still returns normally — the
failure is only logged — so `process_message` updates the checkpoint for the
event even though delivery did not succeed. -/
theorem checkpoint_updated_after_failed_delivery :
    CustomProcessor.process [some []] (.ok false) = .ok ()
  ∧ (process_message (CustomProcessor.process [some []] (.ok false))).checkpoint_updated
      = true
  ∧ ¬ (process_message (CustomProcessor.process [some []] (.ok false))).checkpoint_updated
      = false := by
  exact ⟨rfl, rfl, by simp [CustomProcessor.process, send_logs_safely, process_message]⟩

/-- C3 (amended): the Partition Worker calls the Checkpoint Store update for
an event's position exactly when the processing pipeline for that event
returns without raising; a delivery failure reported as a False `send` result
is only logged and still leads to the checkpoint update; if any step of the
pipeline raises, no checkpoint update is performed for that event and a
`ProcessingError` wrapping the exception is raised past the handler (the
`error_handler` decorator re-raises it unchanged). -/
theorem process_message_checkpoint_spec (o : Except Unit Unit)
    (extracted : List (Option Entry)) (send_result : Except Unit Bool) :
    ((process_message o).checkpoint_updated = true ↔ o = .ok ())
  ∧ ((process_message o).raised_processing_error = true ↔ o = .error ())
  ∧ ((process_message o).checkpoint_updated = !(process_message o).raised_processing_error)
  ∧ CustomProcessor.process extracted (.ok false) = .ok ()
  ∧ (process_message (.error ()) = ⟨false, true⟩)
  ∧ (CustomProcessor.process extracted send_result = .error ()
        → (extracted.isEmpty = false ∧ send_result = .error ())) := by
  refine ⟨?_, ?_, ?_, ?_, rfl, ?_⟩
  · cases o with
    | ok u => cases u; simp [process_message]
    | error e => cases e; simp [process_message]
  · cases o with
    | ok u => cases u; simp [process_message]
    | error e => cases e; simp [process_message]
  · cases o with
    | ok u => rfl
    | error e => rfl
  · rw [CustomProcessor.process]
    by_cases h : extracted.isEmpty <;> simp [h, send_logs_safely]
  · intro h
    rw [CustomProcessor.process] at h
    by_cases hemp : extracted.isEmpty
    · rw [if_pos hemp] at h
      exact absurd h (by simp)
    · rw [if_neg hemp] at h
      cases send_result with
      | ok b => exact absurd h (by simp [send_logs_safely])
      | error e =>
        cases e
        exact ⟨by simpa using hemp, rfl⟩

/-- C7: an integer level maps 1→Critical, 2→Error, 3→Warning,
4→Informational and any other integer to Informational; a non-integer level
value is stored verbatim (only a warning is logged when it is not canonical);
the first alias of the level-field set present in the record is the one used;
with no level field present the severity is Informational. -/
theorem extract_severity_spec (record : List (String × LevelVal)) :
    (map_to_severity (.int 1) = .str "Critical"
      ∧ map_to_severity (.int 2) = .str "Error"
      ∧ map_to_severity (.int 3) = .str "Warning"
      ∧ map_to_severity (.int 4) = .str "Informational")
  ∧ (∀ n : Int, n ≠ 1 → n ≠ 2 → n ≠ 3 → n ≠ 4 →
        map_to_severity (.int n) = .str "Informational")
  ∧ (∀ s : String, map_to_severity (.str s) = .str s)
  ∧ (∀ key v,
        azure_level_properties.find? (fun k => (pyDictGet? record k).isSome) = some key →
        pyDictGet? record key = some v →
        extract_severity record = map_to_severity v)
  ∧ ((∀ k ∈ azure_level_properties, pyDictGet? record k = none) →
        extract_severity record = .str "Informational") := by
  refine ⟨⟨rfl, rfl, rfl, rfl⟩, ?_, fun s => rfl, ?_, ?_⟩
  · intro n h1 h2 h3 h4
    have e1 : ((1 : Int) == n) = false := beq_eq_false_iff_ne.mpr (Ne.symm h1)
    have e2 : ((2 : Int) == n) = false := beq_eq_false_iff_ne.mpr (Ne.symm h2)
    have e3 : ((3 : Int) == n) = false := beq_eq_false_iff_ne.mpr (Ne.symm h3)
    have e4 : ((4 : Int) == n) = false := beq_eq_false_iff_ne.mpr (Ne.symm h4)
    simp [map_to_severity, level_dict_get, log_level_to_severity_dict, List.find?,
      DEFAULT_SEVERITY_INFO, e1, e2, e3, e4]
  · intro key v hfind hget
    simp only [extract_severity, hfind, hget]
  · intro hnone
    rw [extract_severity]
    have : azure_level_properties.find? (fun k => (pyDictGet? record k).isSome) = none := by
      rw [List.find?_eq_none]
      intro k hk
      simp [hnone k hk]
    rw [this]
    rfl

/-- Witness for C7 at a concrete record: an unknown integer level maps to the
default severity. -/
theorem extract_severity_spec_witness :
    extract_severity [("Level", LevelVal.int 7)] = .str "Informational" := by
  have hpresent :=
    (extract_severity_spec [("Level", LevelVal.int 7)]).2.2.2.1 "Level" (.int 7)
      (by decide) (by decide)
  rw [hpresent]
  exact (extract_severity_spec [("Level", LevelVal.int 7)]).2.1 7
    (by decide) (by decide) (by decide) (by decide)

/-- C8: assuming the configured limits are at least the marker length (the
source slices with `limit - len(mark)`), a content value longer than the
content limit is cut to exactly the limit including the trailing mark and a
value at or below it is unchanged; severity and timestamp are stringified
untruncated; any other key is stringified and bounded by the attribute limit
under the same marker policy; the rebuilt record keeps its keys in order and
every value is a (string) rendering of the original. -/
theorem apply_field_limits_spec (cfg : LimitsConfig) (record : List (String × PyVal))
    (hc : cfg.truncated_mark.length ≤ cfg.content_limit)
    (ha : cfg.truncated_mark.length ≤ cfg.attribute_limit) :
    (∀ v, cfg.content_limit < (content_serialized v).length →
        truncate_value cfg "content" v
            = (content_serialized v).take (cfg.content_limit - cfg.truncated_mark.length)
                ++ cfg.truncated_mark
          ∧ (truncate_value cfg "content" v).length = cfg.content_limit)
  ∧ (∀ v, (content_serialized v).length ≤ cfg.content_limit →
        truncate_value cfg "content" v = content_serialized v)
  ∧ (∀ v, truncate_value cfg "severity" v = py_str v
        ∧ truncate_value cfg "timestamp" v = py_str v)
  ∧ (∀ key v, key ≠ "content" → key ≠ "severity" → key ≠ "timestamp" →
        truncate_value cfg key v = truncate_generic_field cfg v
          ∧ (truncate_value cfg key v).length ≤ cfg.attribute_limit)
  ∧ ((apply_field_limits cfg record).map Prod.fst = record.map Prod.fst)
  ∧ (∀ kv ∈ record, (kv.1, truncate_value cfg kv.1 kv.2) ∈ apply_field_limits cfg record) := by
  refine ⟨?_, ?_, fun v => ⟨rfl, rfl⟩, ?_, ?_, ?_⟩
  · intro v hlong
    have heq : truncate_value cfg "content" v
        = (content_serialized v).take (cfg.content_limit - cfg.truncated_mark.length)
            ++ cfg.truncated_mark := by
      rw [truncate_value, if_pos rfl, truncate_content, if_pos hlong]
    refine ⟨heq, ?_⟩
    rw [heq]
    rw [List.length_append, List.length_take]
    omega
  · intro v hshort
    rw [truncate_value, if_pos rfl, truncate_content, if_neg (Nat.not_lt.mpr hshort)]
  · intro key v hk1 hk2 hk3
    have heq : truncate_value cfg key v = truncate_generic_field cfg v := by
      rw [truncate_value, if_neg hk1, if_neg (by simp [hk2, hk3])]
    refine ⟨heq, ?_⟩
    rw [heq, truncate_generic_field]
    by_cases hlong : cfg.attribute_limit < (py_str v).length
    · rw [if_pos hlong]
      rw [List.length_append, List.length_take]
      omega
    · rw [if_neg hlong]
      omega
  · simp [apply_field_limits]
  · intro kv hkv
    rw [apply_field_limits]
    exact List.mem_map.mpr ⟨kv, hkv, rfl⟩

/-- Witness for C8: marker `[...]`, content limit 8, attribute limit 6; an
overlong content value is cut to exactly 8 characters ending in the marker. -/
theorem apply_field_limits_spec_witness :
    (8 : Nat) < "0123456789AB".data.length
  ∧ truncate_value ⟨6, 8, "[...]".data⟩ "content" (.str "0123456789AB".data)
      = "012[...]".data
  ∧ (truncate_value ⟨6, 8, "[...]".data⟩ "content" (.str "0123456789AB".data)).length = 8 := by
  have h := (apply_field_limits_spec ⟨6, 8, "[...]".data⟩ [] (by decide) (by decide)).1
    (.str "0123456789AB".data) (by decide)
  exact ⟨by decide, by rw [h.1]; decide, h.2⟩

/-- C9: `apply` is a total function of the engine state and the record (the
source catches every exception); a rule is applicable iff all of its source
matchers match; the first applicable rule in load order is the one applied and
the rules after it do not influence the result; with no applicable rule the
default rule is applied when present and the entry is left unchanged
otherwise. -/
theorem metadata_apply_spec (search : String → RawRec → Option (List Char))
    (record : RawRec) (parsed : Entry) :
    (∀ rule : ConfigRule,
        is_rule_applicable rule record parsed = true
          ↔ ∀ m ∈ rule.source_matchers, m.matches record parsed = true)
  ∧ (∀ (pre post : List ConfigRule) (r : ConfigRule) (dflt : Option ConfigRule),
        (∀ r' ∈ pre, is_rule_applicable r' record parsed = false) →
        is_rule_applicable r record parsed = true →
        MetadataEngine.apply search (pre ++ r :: post) dflt record parsed
          = apply_rule search r parsed record)
  ∧ (∀ (rules : List ConfigRule) (d : ConfigRule),
        (∀ r ∈ rules, is_rule_applicable r record parsed = false) →
        MetadataEngine.apply search rules (some d) record parsed
          = apply_rule search d parsed record)
  ∧ (∀ rules : List ConfigRule,
        (∀ r ∈ rules, is_rule_applicable r record parsed = false) →
        MetadataEngine.apply search rules none record parsed = parsed) := by
  refine ⟨?_, ?_, ?_, ?_⟩
  · intro rule
    rw [is_rule_applicable, List.all_eq_true]
  · intro pre
    induction pre with
    | nil =>
      intro post r dflt _ happ
      rw [MetadataEngine.apply, List.nil_append, metadata_apply_go, if_pos happ]
    | cons p pre ih =>
      intro post r dflt hpre happ
      have hp : is_rule_applicable p record parsed = false :=
        hpre p (List.mem_cons_self p pre)
      rw [MetadataEngine.apply, List.cons_append, metadata_apply_go, hp]
      simp only [Bool.false_eq_true, if_false]
      exact ih post r dflt (fun r' hr' => hpre r' (List.mem_cons_of_mem p hr')) happ
  · intro rules d hnone
    induction rules with
    | nil => rw [MetadataEngine.apply, metadata_apply_go]
    | cons p rules ih =>
      have hp : is_rule_applicable p record parsed = false :=
        hnone p (List.mem_cons_self p rules)
      rw [MetadataEngine.apply, metadata_apply_go, hp]
      simp only [Bool.false_eq_true, if_false]
      exact ih fun r hr => hnone r (List.mem_cons_of_mem p hr)
  · intro rules hnone
    induction rules with
    | nil => rw [MetadataEngine.apply, metadata_apply_go]
    | cons p rules ih =>
      have hp : is_rule_applicable p record parsed = false :=
        hnone p (List.mem_cons_self p rules)
      rw [MetadataEngine.apply, metadata_apply_go, hp]
      simp only [Bool.false_eq_true, if_false]
      exact ih fun r hr => hnone r (List.mem_cons_of_mem p hr)

/-- Witness for C9 at a concrete engine: one matching rule before one further
rule, no default; the first rule's attributes are applied. -/
theorem metadata_apply_spec_witness :
    is_rule_applicable ⟨"e", [⟨true, .category, .opEq, "foo".data⟩], [⟨"k", "p"⟩]⟩
        [("category", "FOO".data)] [] = true
  ∧ MetadataEngine.apply (fun _ _ => some "v".data)
        ([] ++ ⟨"e", [⟨true, .category, .opEq, "foo".data⟩], [⟨"k", "p"⟩]⟩
          :: [⟨"other", [⟨true, .category, .opEq, "bar".data⟩], [⟨"k2", "q"⟩]⟩]) none
        [("category", "FOO".data)] []
      = apply_rule (fun _ _ => some "v".data)
          ⟨"e", [⟨true, .category, .opEq, "foo".data⟩], [⟨"k", "p"⟩]⟩
          [] [("category", "FOO".data)] :=
  ⟨by decide,
    (metadata_apply_spec (fun _ _ => some "v".data) [("category", "FOO".data)] []).2.1
      [] [⟨"other", [⟨true, .category, .opEq, "bar".data⟩], [⟨"k2", "q"⟩]⟩]
      ⟨"e", [⟨true, .category, .opEq, "foo".data⟩], [⟨"k", "p"⟩]⟩ none
      (by simp) (by decide)⟩

/-- C6 counterexample: for the malformed identifier `"foo"` the entry does not
stay unchanged — the raw identifier is stored under the resource-id attribute
before any validation runs. -/
theorem extract_resource_id_malformed_counterexample :
    extract_resource_id_attributes [] "foo".data = [(RESOURCE_ID_ATTRIBUTE, "foo".data)]
  ∧ extract_resource_id_attributes [] "foo".data ≠ ([] : Entry) := by decide

/-- C6 (amended): for a well-formed identifier the subscription, resource
group, resource name (last segment) and resource type (provider segment plus
the odd-indexed later segments of the middle, joined with `/`) are emitted;
for any identifier violating the conditions the raw identifier is still
recorded under the resource-id attribute but nothing else is added, and no
exception propagates; the Microsoft.Compute example yields exactly the
expected attributes. -/
theorem extract_resource_id_attributes_spec (parsed : Entry) (rid : List Char)
    (parts : List (List Char))
    (hparts : parts = List.splitOn '/' (rid.dropWhile (· = '/'))) :
    (7 ≤ parts.length →
      casefold (parts.getD 0 []) = "subscriptions".data →
      casefold (parts.getD 2 []) = "resourcegroups".data →
      casefold (parts.getD 4 []) = "providers".data →
        pyDictGet? (extract_resource_id_attributes parsed rid) RESOURCE_ID_ATTRIBUTE
            = some rid
        ∧ pyDictGet? (extract_resource_id_attributes parsed rid) SUBSCRIPTION_ATTRIBUTE
            = some (parts.getD 1 [])
        ∧ pyDictGet? (extract_resource_id_attributes parsed rid) RESOURCE_GROUP_ATTRIBUTE
            = some (parts.getD 3 [])
        ∧ pyDictGet? (extract_resource_id_attributes parsed rid) RESOURCE_NAME_ATTRIBUTE
            = some (parts.getLastD [])
        ∧ pyDictGet? (extract_resource_id_attributes parsed rid) RESOURCE_TYPE_ATTRIBUTE
            = some (List.intercalate ['/']
                (((parts.drop 5).dropLast.enum.filter
                  (fun p => p.1 == 0 || !(p.1 % 2 == 0))).map (·.2))))
  ∧ ((parts.length < 7
      ∨ casefold (parts.getD 0 []) ≠ "subscriptions".data
      ∨ casefold (parts.getD 2 []) ≠ "resourcegroups".data
      ∨ casefold (parts.getD 4 []) ≠ "providers".data) →
      extract_resource_id_attributes parsed rid
        = pyDictSet parsed RESOURCE_ID_ATTRIBUTE rid)
  ∧ extract_resource_id_attributes []
        "/subscriptions/S/resourceGroups/G/providers/Microsoft.Compute/virtualMachines/V/extensions/E".data
      = [(RESOURCE_ID_ATTRIBUTE,
          "/subscriptions/S/resourceGroups/G/providers/Microsoft.Compute/virtualMachines/V/extensions/E".data),
         (SUBSCRIPTION_ATTRIBUTE, "S".data),
         (RESOURCE_GROUP_ATTRIBUTE, "G".data),
         (RESOURCE_NAME_ATTRIBUTE, "E".data),
         (RESOURCE_TYPE_ATTRIBUTE, "Microsoft.Compute/virtualMachines/extensions".data)] := by
  subst hparts
  refine ⟨?_, ?_, by decide⟩
  · intro h7 h0 h2 h4
    have hres : extract_resource_id_attributes parsed rid
        = pyDictSet (pyDictSet (pyDictSet (pyDictSet
            (pyDictSet parsed RESOURCE_ID_ATTRIBUTE rid)
            SUBSCRIPTION_ATTRIBUTE
              ((List.splitOn '/' (rid.dropWhile (· = '/'))).getD 1 []))
            RESOURCE_GROUP_ATTRIBUTE
              ((List.splitOn '/' (rid.dropWhile (· = '/'))).getD 3 []))
            RESOURCE_NAME_ATTRIBUTE
              ((List.splitOn '/' (rid.dropWhile (· = '/'))).getLastD []))
            RESOURCE_TYPE_ATTRIBUTE
              (List.intercalate ['/']
                ((((List.splitOn '/' (rid.dropWhile (· = '/'))).drop 5).dropLast.enum.filter
                  (fun p => p.1 == 0 || !(p.1 % 2 == 0))).map (·.2))) := by
      simp only [extract_resource_id_attributes]
      rw [if_neg (Nat.not_lt.mpr h7), if_neg (not_not_intro h0), if_neg (not_not_intro h2),
        if_neg (not_not_intro h4)]
    rw [hres]
    refine ⟨?_, ?_, ?_, ?_, ?_⟩
    · rw [pyDictGet?_set_other _ _ _ _ (by decide), pyDictGet?_set_other _ _ _ _ (by decide),
        pyDictGet?_set_other _ _ _ _ (by decide), pyDictGet?_set_other _ _ _ _ (by decide),
        pyDictGet?_set_self]
    · rw [pyDictGet?_set_other _ _ _ _ (by decide), pyDictGet?_set_other _ _ _ _ (by decide),
        pyDictGet?_set_other _ _ _ _ (by decide), pyDictGet?_set_self]
    · rw [pyDictGet?_set_other _ _ _ _ (by decide), pyDictGet?_set_other _ _ _ _ (by decide),
        pyDictGet?_set_self]
    · rw [pyDictGet?_set_other _ _ _ _ (by decide), pyDictGet?_set_self]
    · rw [pyDictGet?_set_self]
  · intro hviol
    simp only [extract_resource_id_attributes]
    by_cases c1 : (List.splitOn '/' (rid.dropWhile (· = '/'))).length < 7
    · rw [if_pos c1]
    · rw [if_neg c1]
      by_cases c2 : casefold ((List.splitOn '/' (rid.dropWhile (· = '/'))).getD 0 [])
          ≠ "subscriptions".data
      · rw [if_pos c2]
      · rw [if_neg c2]
        by_cases c3 : casefold ((List.splitOn '/' (rid.dropWhile (· = '/'))).getD 2 [])
            ≠ "resourcegroups".data
        · rw [if_pos c3]
        · rw [if_neg c3]
          by_cases c4 : casefold ((List.splitOn '/' (rid.dropWhile (· = '/'))).getD 4 [])
              ≠ "providers".data
          · rw [if_pos c4]
          · exfalso
            rcases hviol with h | h | h | h
            · exact c1 h
            · exact h (not_not.mp c2)
            · exact h (not_not.mp c3)
            · exact h (not_not.mp c4)

/-- Witness for C6 (amended) at the well-formed Microsoft.Compute identifier. -/
theorem extract_resource_id_attributes_spec_witness :
    pyDictGet? (extract_resource_id_attributes []
        "/subscriptions/S/resourceGroups/G/providers/Microsoft.Compute/virtualMachines/V/extensions/E".data)
      RESOURCE_NAME_ATTRIBUTE = some "E".data :=
  ((extract_resource_id_attributes_spec []
      "/subscriptions/S/resourceGroups/G/providers/Microsoft.Compute/virtualMachines/V/extensions/E".data
      _ rfl).1 (by decide) (by decide) (by decide) (by decide)).2.2.2.1

/-- Witness for C3 (amended) at a concrete pipeline outcome. -/
theorem process_message_checkpoint_spec_witness :
    ([some ([] : Entry)] : List (Option Entry)).isEmpty = false
  ∧ (Except.error () : Except Unit Bool) = .error () :=
  (process_message_checkpoint_spec (.ok ()) [some []] (.error ())).2.2.2.2.2 rfl
